import Mathlib

/-!
Verification of `datalad_core/commands/dataset.py`: the lazy, memoizing
`Dataset` identity resolver and the `EnsureDataset` existence constraint.

The Python module is shallowly embedded: `Dataset` instances become an
explicit state record (pristine spec plus the three memo attributes, each a
single `Option` initialized to `none`, exactly as in `__init__`), the three
properties become state-passing functions, Python exceptions become `Except`,
and the external collaborators (`Path.cwd()`, the `Repo`/`Worktree`
constructors used by `get_gitmanaged_from_pathlike`) become an environment
record of functions.
-/

namespace DataladCore

/-- Model of a `pathlib.Path` value: its textual form together with
whether it denotes an absolute location. -/
structure PyPath where
  text : String
  absolute : Bool
deriving DecidableEq

/-- Model of `Path(s)` applied to a string: the result is absolute exactly
when the string starts with the separator. -/
def pathOfString (s : String) : PyPath :=
  { text := s, absolute := s.startsWith "/" }

/-- Model of a resolved `datalad_core.repo.Repo` handle: its root path and
the set of keys present in its `config.sources` entry `datalad-branch`. -/
structure Repo where
  path : PyPath
  branchConfig : List String
deriving DecidableEq

/-- Model of a resolved `datalad_core.repo.Worktree` handle: its root path,
its associated repository (`Worktree.repo`), and the keys present in its
`config.sources` entry `datalad-branch`. -/
structure Worktree where
  path : PyPath
  repo : Repo
  branchConfig : List String
deriving DecidableEq

/-- The Python exceptions relevant to `Dataset.path` resolution. -/
inductive PyError where
  | typeError (msg : String)
  | valueError (msg : String)
deriving DecidableEq

/-- The external environment of one property access: the process working
directory (`Path.cwd()`) and the `Repo(path)` / `Worktree(path)` constructors,
where a `none` result models the `ValueError` raised when no such entity is
rooted at the given path (the `ValueError` that `get_gitmanaged_from_pathlike`
turns into `None`). -/
structure Env where
  cwd : PyPath
  discoverRepo : PyPath → Option Repo
  discoverWorktree : PyPath → Option Worktree

/-- The raw `spec` value given to `Dataset.__init__` (and the raw `value`
given to `EnsureDataset.__call__`): `None`, a `Path`, a `str`, a `Repo`, a
`Worktree`, or an unsupported value of some other type (modelled by its type
name), for which `Path(value)` raises `TypeError`. -/
inductive Spec where
  | absent
  | path (p : PyPath)
  | str (s : String)
  | repo (r : Repo)
  | worktree (w : Worktree)
  | bad (tyName : String)
deriving DecidableEq

/-- The Python type name of a spec value, as interpolated into the
`cannot create Dataset from ...` message. -/
def Spec.typeName : Spec → String
  | .absent => "NoneType"
  | .path _ => "PosixPath"
  | .str _ => "str"
  | .repo _ => "Repo"
  | .worktree _ => "Worktree"
  | .bad t => t

/-- A path-like argument of `get_gitmanaged_from_pathlike`: a `Path`
or a `str`. -/
inductive PathLike where
  | path (p : PyPath)
  | str (s : String)
deriving DecidableEq

/-- The `if not isinstance(path, Path): path = Path(path)` coercion in
`get_gitmanaged_from_pathlike`. -/
def PathLike.toPath : PathLike → PyPath
  | .path p => p
  | .str s => pathOfString s

/-- `get_gitmanaged_from_pathlike(cls, path)`: coerce the argument to a
`Path` and call the requested constructor (passed here as `disc`), mapping
its `ValueError` to `None`. -/
def get_gitmanaged_from_pathlike (disc : PyPath → Option α) (pl : PathLike) : Option α :=
  disc pl.toPath

/-- The state of a `Dataset` instance: the pristine `_spec` and the three
memo attributes `_worktree`, `_repo`, `_path`, each initialized to `None`.
Note the single `Option`: the code does not distinguish "not yet resolved"
from "resolved to none". -/
structure Dataset where
  spec : Spec
  worktreeCache : Option Worktree
  repoCache : Option Repo
  pathCache : Option PyPath
deriving DecidableEq

/-- `Dataset.__init__(spec)`. -/
def Dataset.new (spec : Spec) : Dataset :=
  { spec := spec, worktreeCache := none, repoCache := none, pathCache := none }

/-- The `Dataset.pristine_spec` property. -/
def Dataset.pristine_spec (ds : Dataset) : Spec :=
  ds.spec

/-- The isinstance chain in the body of the `Dataset.worktree` property:
take a `Worktree` spec directly, discover from a `Path` or `str` spec via
`get_gitmanaged_from_pathlike`, otherwise leave `None`. -/
def worktreeFromSpec (env : Env) (spec : Spec) : Option Worktree :=
  match spec with
  | .worktree w => some w
  | .path p => get_gitmanaged_from_pathlike env.discoverWorktree (.path p)
  | .str s => get_gitmanaged_from_pathlike env.discoverWorktree (.str s)
  | _ => none

/-- The `Dataset.worktree` property: returned value and updated instance
state. If `_worktree` is unset, compute it from the pristine spec and store
the result (a computed `None` leaves the attribute `None`, which is
indistinguishable from unset). -/
def Dataset.worktree (ds : Dataset) (env : Env) : Option Worktree × Dataset :=
  match ds.worktreeCache with
  | some w => (some w, ds)
  | none =>
    let w := worktreeFromSpec env ds.spec
    (w, { ds with worktreeCache := w })

/-- The isinstance chain in the body of the `Dataset.repo` property, used
when `self.worktree` is `None`: take a `Repo` spec directly, discover from a
`Path` or `str` spec, otherwise leave `None`. -/
def repoFromSpec (env : Env) (spec : Spec) : Option Repo :=
  match spec with
  | .repo r => some r
  | .path p => get_gitmanaged_from_pathlike env.discoverRepo (.path p)
  | .str s => get_gitmanaged_from_pathlike env.discoverRepo (.str s)
  | _ => none

/-- The `Dataset.repo` property: if `_repo` is unset, consult
`self.worktree` first (taking its `.repo` when present), then fall back to
the isinstance chain on the pristine spec. -/
def Dataset.repo (ds : Dataset) (env : Env) : Option Repo × Dataset :=
  match ds.repoCache with
  | some r => (some r, ds)
  | none =>
    let wres := ds.worktree env
    let r : Option Repo :=
      match wres.1 with
      | some w => some w.repo
      | none => repoFromSpec env ds.spec
    (r, { wres.2 with repoCache := r })

/-- The pristine-spec fallback at the end of `Dataset.path`: a `Path` spec
is returned unmodified, a `str` spec goes through `Path(ps)`, and any other
value reaching this point raises `TypeError` from `Path(ps)`. -/
def pathFromSpec : Spec → Except PyError PyPath
  | .path p => .ok p
  | .str s => .ok (pathOfString s)
  | sp => .error (.typeError (Spec.typeName sp))

/-- The `Dataset.path` property: cached value if set; the working directory
for a `None` spec; else the worktree root, else the repo root, else the
pristine-spec fallback. `Except.error` models the `TypeError` escaping from
`Path(ps)` on an unsupported spec. -/
def Dataset.path (ds : Dataset) (env : Env) : Except PyError PyPath × Dataset :=
  match ds.pathCache with
  | some p => (.ok p, ds)
  | none =>
    if ds.spec = .absent then
      (.ok env.cwd, { ds with pathCache := some env.cwd })
    else
      let wres := ds.worktree env
      match wres.1 with
      | some w => (.ok w.path, { wres.2 with pathCache := some w.path })
      | none =>
        let rres := wres.2.repo env
        match rres.1 with
        | some r => (.ok r.path, { rres.2 with pathCache := some r.path })
        | none =>
          match pathFromSpec ds.spec with
          | .ok p => (.ok p, { rres.2 with pathCache := some p })
          | .error e => (.error e, rres.2)

/-- A present repository or worktree entity, as produced by the expression
`ds.worktree or ds.repo` in `EnsureDataset.__call__`. -/
inductive GitEntity where
  | wt (w : Worktree)
  | rp (r : Repo)
deriving DecidableEq

/-- The `config.sources` entry `datalad-branch` of the selected entity, as a
list of present keys. -/
def GitEntity.branchConfig : GitEntity → List String
  | .wt w => w.branchConfig
  | .rp r => r.branchConfig

/-- The expression `ds.worktree or ds.repo`: evaluate the worktree property;
when it is `None`, evaluate the repo property on the resulting state. -/
def Dataset.worktreeOrRepo (ds : Dataset) (env : Env) : Option GitEntity × Dataset :=
  let wres := ds.worktree env
  match wres.1 with
  | some w => (some (.wt w), wres.2)
  | none =>
    let rres := wres.2.repo env
    match rres.1 with
    | some r => (some (.rp r), rres.2)
    | none => (none, rres.2)

/-- The `installed` argument of `EnsureDataset.__init__`: `None`, a `bool`,
or a `str` (the special string is `with-id`). -/
inductive InstalledArg where
  | unset
  | bool (b : Bool)
  | str (s : String)
deriving DecidableEq

/-- Python truthiness of the `installed` value (`None` and the empty string
are falsy). -/
def InstalledArg.truthy : InstalledArg → Bool
  | .unset => false
  | .bool b => b
  | .str s => decide (s ≠ "")

/-- The `EnsureDataset` constraint: a single configuration field
`_installed`. -/
structure EnsureDataset where
  installed : InstalledArg
deriving DecidableEq

/-- The `EnsureDataset.input_synopsis` property. -/
def EnsureDataset.input_synopsis (c : EnsureDataset) : String :=
  "(path to) " ++
    (if c.installed.truthy then "an existing "
     else if c.installed = .bool false then "a non-existing "
     else "a ") ++
    "dataset"

/-- The validation failures signalled via `self.raise_for` in
`EnsureDataset.__call__`, in the order they appear in the code. -/
inductive DsError where
  | cannotCreate (tyName : String) (causedBy : PyError)
  | alreadyExists
  | notInstalled
  | missingDataladId
deriving DecidableEq

/-- The `with-id` branch of `EnsureDataset.__call__`: select
`to_query = ds.worktree or ds.repo` and require the key
`datalad.dataset.id` in its `datalad-branch` config source. The `none` case
of the selection is unreachable after the installed check. -/
def EnsureDataset.checkId (c : EnsureDataset) (env : Env) (ds : Dataset) :
    Except DsError Dataset :=
  if c.installed ≠ .str "with-id" then
    .ok ds
  else
    match (ds.worktreeOrRepo env).1 with
    | none => .error .missingDataladId
    | some q =>
      if "datalad.dataset.id" ∈ q.branchConfig then .ok (ds.worktreeOrRepo env).2
      else .error .missingDataladId

/-- The `if self._installed and not (ds.worktree or ds.repo)` check of
`EnsureDataset.__call__` (the entity expression is only evaluated when
`installed` is truthy, mirroring the short-circuit `and`). -/
def EnsureDataset.checkInstalled (c : EnsureDataset) (env : Env) (ds : Dataset) :
    Except DsError Dataset :=
  if c.installed.truthy then
    if (ds.worktreeOrRepo env).1.isNone then .error .notInstalled
    else c.checkId env (ds.worktreeOrRepo env).2
  else
    c.checkId env ds

/-- The `if self._installed is False and (ds.worktree or ds.repo)` check of
`EnsureDataset.__call__` (the entity expression is only evaluated when
`installed` is the literal `False`, mirroring the short-circuit `and`). -/
def EnsureDataset.checkNotExists (c : EnsureDataset) (env : Env) (ds : Dataset) :
    Except DsError Dataset :=
  if c.installed = .bool false then
    if (ds.worktreeOrRepo env).1.isSome then .error .alreadyExists
    else c.checkInstalled env (ds.worktreeOrRepo env).2
  else
    c.checkInstalled env ds

/-- `EnsureDataset.__call__(value)`: build a fresh `Dataset`, force `ds.path`
(wrapping a `ValueError`/`TypeError` into the `cannot create Dataset from`
failure), then run the policy checks in source order. -/
def EnsureDataset.call (c : EnsureDataset) (env : Env) (value : Spec) :
    Except DsError Dataset :=
  match ((Dataset.new value).path env).1 with
  | .error e => .error (.cannotCreate (Spec.typeName value) e)
  | .ok _ => c.checkNotExists env ((Dataset.new value).path env).2

/-! Canonical resolution values. The memo attributes start out unset, so the
value each property computes on a fresh cache is a pure function of the
environment and the pristine spec; the definitions below name those values,
and the soundness lemmas that follow show every property access on any state
reachable from `Dataset.new spec` returns exactly them. -/

/-- The worktree value the `worktree` property computes. -/
def worktree0 (env : Env) (spec : Spec) : Option Worktree :=
  worktreeFromSpec env spec

/-- The repo value the `repo` property computes: the repository of the worktree
when a worktree resolves, else the spec-based chain. -/
def repo0 (env : Env) (spec : Spec) : Option Repo :=
  match worktree0 env spec with
  | some w => some w.repo
  | none => repoFromSpec env spec

/-- The entity `ds.worktree or ds.repo` evaluates to. -/
def entity0 (env : Env) (spec : Spec) : Option GitEntity :=
  match worktree0 env spec with
  | some w => some (.wt w)
  | none =>
    match repo0 env spec with
    | some r => some (.rp r)
    | none => none

/-- The path value the `path` property computes, `none` when it raises. -/
def path0 (env : Env) (spec : Spec) : Option PyPath :=
  if spec = .absent then some env.cwd
  else
    match worktree0 env spec with
    | some w => some w.path
    | none =>
      match repo0 env spec with
      | some r => some r.path
      | none =>
        match pathFromSpec spec with
        | .ok p => some p
        | .error _ => none

/-- The outcome of the `path` property: the canonical path, or the
`TypeError` of the pristine-spec fallback. -/
def pathRes0 (env : Env) (spec : Spec) : Except PyError PyPath :=
  match path0 env spec with
  | some p => .ok p
  | none => .error (.typeError (Spec.typeName spec))

/-- Cache soundness: the pristine spec is `spec` and every memo attribute is
either still unset or holds the canonical value for `spec` under `env`. -/
def Inv (env : Env) (spec : Spec) (ds : Dataset) : Prop :=
  ds.spec = spec ∧
  (ds.worktreeCache = none ∨ ds.worktreeCache = worktree0 env spec) ∧
  (ds.repoCache = none ∨ ds.repoCache = repo0 env spec) ∧
  (ds.pathCache = none ∨ ds.pathCache = path0 env spec)

/-- The states reachable from `ds` by property accesses under a fixed
environment. -/
inductive Reaches (env : Env) : Dataset → Dataset → Prop where
  | refl (ds : Dataset) : Reaches env ds ds
  | worktree {a b : Dataset} : Reaches env a b → Reaches env a (b.worktree env).2
  | repo {a b : Dataset} : Reaches env a b → Reaches env a (b.repo env).2
  | path {a b : Dataset} : Reaches env a b → Reaches env a (b.path env).2

/-- The five spec shapes the `Dataset` constructor is annotated with
(everything except the unsupported-value case). -/
def Spec.supported : Spec → Bool
  | .bad _ => false
  | _ => true

/-- Well-formedness of the environment: `Path.cwd()` is absolute, and the
discovery primitives only ever hand out handles rooted at absolute paths
(which is what the real `Repo`/`Worktree` constructors guarantee). -/
def Env.wf (env : Env) : Prop :=
  env.cwd.absolute = true ∧
  (∀ p r, env.discoverRepo p = some r → r.path.absolute = true) ∧
  (∀ p w, env.discoverWorktree p = some w → w.path.absolute = true)

/-- Handle-shaped specs carry their own root path; this predicate says that
path is absolute. -/
def Spec.handlesAbsolute : Spec → Prop
  | .repo r => r.path.absolute = true
  | .worktree w => w.path.absolute = true
  | _ => True

/-- Absoluteness of the path the pristine-spec fallback of `Dataset.path`
would produce. -/
def Spec.fallbackAbsolute : Spec → Bool
  | .path p => p.absolute
  | .str s => (pathOfString s).absolute
  | _ => true

/-- Splits a character list at spaces, accumulating the current word in
reverse. -/
def splitWords : List Char → List Char → List String
  | [], acc => [String.mk acc.reverse]
  | c :: cs, acc =>
    if c = ' ' then String.mk acc.reverse :: splitWords cs []
    else splitWords cs (c :: acc)

/-- The whitespace-delimited words of a string. -/
def words (s : String) : List String :=
  splitWords s.data []

/-- Sample absolute path, used to instantiate theorems with hypotheses. -/
def samplePath : PyPath :=
  { text := "/ds", absolute := true }

/-- Sample relative path. -/
def relPath : PyPath :=
  { text := "subdir", absolute := false }

/-- Sample repository handle without the datalad id marker. -/
def sampleRepo : Repo :=
  { path := { text := "/ds", absolute := true }, branchConfig := [] }

/-- Sample repository handle carrying the datalad id marker. -/
def sampleRepoWithId : Repo :=
  { path := { text := "/ds", absolute := true },
    branchConfig := ["datalad.dataset.id"] }

/-- Sample worktree handle. -/
def sampleWorktree : Worktree :=
  { path := { text := "/ds", absolute := true }, repo := sampleRepo,
    branchConfig := [] }

/-- Environment in which no managed entity exists anywhere. -/
def envEmpty : Env :=
  { cwd := { text := "/", absolute := true },
    discoverRepo := fun _ => none,
    discoverWorktree := fun _ => none }

/-- Environment in which a bare repository (no worktree) is discovered at
every path. -/
def envRepoAt : Env :=
  { cwd := { text := "/", absolute := true },
    discoverRepo := fun _ => some sampleRepo,
    discoverWorktree := fun _ => none }

/-- Environment discovering a bare repository that carries the datalad id
marker. -/
def envRepoWithId : Env :=
  { cwd := { text := "/", absolute := true },
    discoverRepo := fun _ => some sampleRepoWithId,
    discoverWorktree := fun _ => none }

theorem inv_new (env : Env) (spec : Spec) : Inv env spec (Dataset.new spec) :=
  ⟨rfl, Or.inl rfl, Or.inl rfl, Or.inl rfl⟩

theorem worktree_sound (env : Env) (spec : Spec) (ds : Dataset) (h : Inv env spec ds) :
    (ds.worktree env).1 = worktree0 env spec ∧ Inv env spec (ds.worktree env).2 := by
  obtain ⟨hspec, hw, hr, hp⟩ := h
  unfold Dataset.worktree
  cases hc : ds.worktreeCache with
  | some w =>
    have hw0 : worktree0 env spec = some w := by
      rcases hw with h0 | h0
      · exact absurd (hc.symm.trans h0) (by simp)
      · exact (hc.symm.trans h0).symm
    simp only [hc]
    exact ⟨hw0.symm, hspec, Or.inr (hc.trans hw0.symm), hr, hp⟩
  | none =>
    simp only [hc]
    refine ⟨by rw [hspec]; rfl, hspec, Or.inr (by rw [hspec]; rfl), hr, hp⟩

theorem repo_sound (env : Env) (spec : Spec) (ds : Dataset) (h : Inv env spec ds) :
    (ds.repo env).1 = repo0 env spec ∧ Inv env spec (ds.repo env).2 := by
  obtain ⟨hspec, hw, hr, hp⟩ := h
  unfold Dataset.repo
  cases hc : ds.repoCache with
  | some r =>
    have hr0 : repo0 env spec = some r := by
      rcases hr with h0 | h0
      · exact absurd (hc.symm.trans h0) (by simp)
      · exact (hc.symm.trans h0).symm
    simp only [hc]
    exact ⟨hr0.symm, hspec, hw, Or.inr (hc.trans hr0.symm), hp⟩
  | none =>
    simp only [hc]
    obtain ⟨hwval, hwspec, hwc, hwr, hwp⟩ :=
      worktree_sound env spec ds ⟨hspec, hw, hr, hp⟩
    have hval :
        (match (ds.worktree env).1 with
          | some w => some w.repo
          | none => repoFromSpec env ds.spec) = repo0 env spec := by
      rw [hwval, hspec]
      cases hw0 : worktree0 env spec with
      | some w => simp [repo0, hw0]
      | none => simp [repo0, hw0]
    exact ⟨hval, hwspec, hwc, Or.inr hval, hwp⟩

theorem pathRes0_eq_ok (env : Env) (spec : Spec) (p : PyPath)
    (h : path0 env spec = some p) : pathRes0 env spec = .ok p := by
  unfold pathRes0
  rw [h]

theorem pathRes0_eq_err (env : Env) (spec : Spec)
    (h : path0 env spec = none) :
    pathRes0 env spec = .error (.typeError (Spec.typeName spec)) := by
  unfold pathRes0
  rw [h]

theorem pathFromSpec_error (spec : Spec) (e : PyError)
    (h : pathFromSpec spec = .error e) : e = .typeError (Spec.typeName spec) := by
  cases spec <;> simp [pathFromSpec] at h <;> exact h.symm

theorem path_sound (env : Env) (spec : Spec) (ds : Dataset) (h : Inv env spec ds) :
    (ds.path env).1 = pathRes0 env spec ∧ Inv env spec (ds.path env).2 := by
  obtain ⟨hspec, hw, hr, hp⟩ := h
  unfold Dataset.path
  cases hc : ds.pathCache with
  | some p =>
    have hp0 : path0 env spec = some p := by
      rcases hp with h0 | h0
      · exact absurd (hc.symm.trans h0) (by simp)
      · exact (hc.symm.trans h0).symm
    simp only [hc]
    exact ⟨(pathRes0_eq_ok env spec p hp0).symm, hspec, hw, hr,
      Or.inr (hc.trans hp0.symm)⟩
  | none =>
    simp only [hc]
    by_cases habs : ds.spec = .absent
    · have hs : spec = .absent := hspec.symm.trans habs
      rw [if_pos habs]
      have hp0 : path0 env spec = some env.cwd := by
        rw [hs]; rfl
      exact ⟨(pathRes0_eq_ok env spec env.cwd hp0).symm, hspec, hw, hr,
        Or.inr hp0.symm⟩
    · have hs : ¬spec = .absent := fun hh => habs (hspec.trans hh)
      rw [if_neg habs]
      obtain ⟨hwval, hwinv⟩ := worktree_sound env spec ds ⟨hspec, hw, hr, hp⟩
      have hp0 : path0 env spec =
          (match worktree0 env spec with
            | some w => some w.path
            | none =>
              match repo0 env spec with
              | some r => some r.path
              | none =>
                match pathFromSpec spec with
                | .ok p => some p
                | .error _ => none) := by
        rw [path0, if_neg hs]
      cases hw0 : (ds.worktree env).1 with
      | some w =>
        have hw0c : worktree0 env spec = some w := hwval.symm.trans hw0
        simp only [hw0]
        obtain ⟨hispec, hic, hir, hip⟩ := hwinv
        have hres : path0 env spec = some w.path := by rw [hp0, hw0c]
        exact ⟨(pathRes0_eq_ok env spec w.path hres).symm, hispec, hic, hir,
          Or.inr hres.symm⟩
      | none =>
        have hw0c : worktree0 env spec = none := hwval.symm.trans hw0
        simp only [hw0]
        obtain ⟨hrval, hrinv⟩ := repo_sound env spec (ds.worktree env).2 hwinv
        cases hr0 : ((ds.worktree env).2.repo env).1 with
        | some r =>
          have hr0c : repo0 env spec = some r := hrval.symm.trans hr0
          simp only [hr0]
          obtain ⟨hispec, hic, hir, hip⟩ := hrinv
          have hres : path0 env spec = some r.path := by rw [hp0, hw0c, hr0c]
          exact ⟨(pathRes0_eq_ok env spec r.path hres).symm, hispec, hic, hir,
            Or.inr hres.symm⟩
        | none =>
          have hr0c : repo0 env spec = none := hrval.symm.trans hr0
          simp only [hr0]
          obtain ⟨hispec, hic, hir, hip⟩ := hrinv
          cases hpf : pathFromSpec ds.spec with
          | ok p =>
            simp only [hpf]
            have hres : path0 env spec = some p := by
              rw [hp0, hw0c, hr0c, ← hspec, hpf]
            exact ⟨(pathRes0_eq_ok env spec p hres).symm, hispec, hic, hir,
              Or.inr hres.symm⟩
          | error e =>
            simp only [hpf]
            have hres : path0 env spec = none := by
              rw [hp0, hw0c, hr0c, ← hspec, hpf]
            have herr : e = .typeError (Spec.typeName spec) := by
              rw [← hspec]
              exact pathFromSpec_error ds.spec e hpf
            exact ⟨herr ▸ (pathRes0_eq_err env spec hres).symm, hispec, hic, hir, hip⟩

theorem worktreeOrRepo_sound (env : Env) (spec : Spec) (ds : Dataset)
    (h : Inv env spec ds) :
    (ds.worktreeOrRepo env).1 = entity0 env spec ∧
      Inv env spec (ds.worktreeOrRepo env).2 := by
  unfold Dataset.worktreeOrRepo
  obtain ⟨hwval, hwinv⟩ := worktree_sound env spec ds h
  cases hw0 : (ds.worktree env).1 with
  | some w =>
    simp only [hw0]
    have hw0c : worktree0 env spec = some w := hwval.symm.trans hw0
    exact ⟨by rw [entity0, hw0c], hwinv⟩
  | none =>
    simp only [hw0]
    have hw0c : worktree0 env spec = none := hwval.symm.trans hw0
    obtain ⟨hrval, hrinv⟩ := repo_sound env spec _ hwinv
    cases hr0 : ((ds.worktree env).2.repo env).1 with
    | some r =>
      simp only [hr0]
      have hr0c : repo0 env spec = some r := hrval.symm.trans hr0
      exact ⟨by rw [entity0, hw0c, hr0c], hrinv⟩
    | none =>
      simp only [hr0]
      have hr0c : repo0 env spec = none := hrval.symm.trans hr0
      exact ⟨by rw [entity0, hw0c, hr0c], hrinv⟩

theorem reaches_inv (env : Env) (spec : Spec) {a b : Dataset}
    (ha : Inv env spec a) (h : Reaches env a b) : Inv env spec b := by
  induction h with
  | refl => exact ha
  | worktree _ ih => exact (worktree_sound env spec _ ih).2
  | repo _ ih => exact (repo_sound env spec _ ih).2
  | path _ ih => exact (path_sound env spec _ ih).2

theorem repoCache_after (ds : Dataset) (env : Env) :
    ((ds.repo env).2).repoCache = (ds.repo env).1 := by
  unfold Dataset.repo
  cases hc : ds.repoCache with
  | some r => simp [hc]
  | none => simp [hc]

theorem repo_cached_some (ds : Dataset) (env env2 : Env) (r : Repo)
    (h : (ds.repo env).1 = some r) :
    ((ds.repo env).2.repo env2).1 = some r := by
  have hcache : ((ds.repo env).2).repoCache = some r :=
    (repoCache_after ds env).trans h
  generalize (ds.repo env).2 = st at hcache
  unfold Dataset.repo
  rw [hcache]

theorem repo_idempotent (ds : Dataset) (env : Env) :
    ((ds.repo env).2.repo env).1 = (ds.repo env).1 := by
  unfold Dataset.repo Dataset.worktree
  cases hc : ds.repoCache with
  | some r => simp [hc]
  | none =>
    cases hwc : ds.worktreeCache with
    | some w => simp [hc, hwc]
    | none =>
      cases hwf : worktreeFromSpec env ds.spec with
      | some w => simp [hc, hwc, hwf]
      | none =>
        cases hrf : repoFromSpec env ds.spec with
        | some r => simp [hc, hwc, hwf, hrf]
        | none => simp [hc, hwc, hwf, hrf]

theorem path0_isSome_of_entity (env : Env) (spec : Spec)
    (h : (entity0 env spec).isSome = true) : ∃ p, path0 env spec = some p := by
  by_cases habs : spec = .absent
  · exact ⟨env.cwd, by rw [habs]; rfl⟩
  · rw [path0, if_neg habs]
    unfold entity0 at h
    cases hw : worktree0 env spec with
    | some w => exact ⟨w.path, rfl⟩
    | none =>
      cases hr : repo0 env spec with
      | some r => exact ⟨r.path, rfl⟩
      | none => rw [hw, hr] at h; simp at h

theorem call_path_ok (c : EnsureDataset) (env : Env) (value : Spec) (p : PyPath)
    (hok : pathRes0 env value = .ok p) :
    EnsureDataset.call c env value =
      c.checkNotExists env ((Dataset.new value).path env).2 := by
  unfold EnsureDataset.call
  rw [(path_sound env value _ (inv_new env value)).1, hok]

/-- C1: the claim (and the `EnsureDataset` docstring) say that validating an
`Absent` spec under a must-exist policy searches upward from the working
directory for an enclosing repository or worktree and fails with
`not installed` only when that search finds nothing. The code performs no
search at all: for every environment — including any whose working directory
lies inside a managed repository — validating the `Absent` spec with
`installed=True` fails with `not installed` unconditionally, without ever
invoking a discovery capability. -/
theorem c1_absent_mustExist_always_not_installed (env : Env) :
    EnsureDataset.call { installed := .bool true } env .absent =
      .error .notInstalled := rfl

/-- C2 counterexample: after the repo accessor of a path-spec dataset first
evaluates to `none`, a second access does re-invoke path-based discovery —
its result tracks whatever the discovery capability returns at the time of
the second access, instead of the cached first result. The single `None`
memo attribute cannot distinguish unset from resolved-none, refuting the
claim at the concrete spec `/ds`. -/
theorem c2_counterexample :
    ((Dataset.new (.path samplePath)).repo envEmpty).1 = none ∧
    (((Dataset.new (.path samplePath)).repo envEmpty).2.repo envRepoAt).1 =
      some sampleRepo :=
  ⟨rfl, rfl⟩

/-- C2 amended: once the repo accessor has evaluated to a present
repository, every subsequent access (under any later environment) returns
that cached handle without re-invoking discovery; when the first evaluation
resolved to none, the cache stays unset and discovery is re-invoked, but
under an unchanged environment the re-computed value is the same, so
repeated access is idempotent in value. -/
theorem c2_repo_memoization (ds : Dataset) (env env2 : Env) :
    (∀ r : Repo, (ds.repo env).1 = some r →
      ((ds.repo env).2.repo env2).1 = some r) ∧
    ((ds.repo env).2.repo env).1 = (ds.repo env).1 :=
  ⟨fun r h => repo_cached_some ds env env2 r h, repo_idempotent ds env⟩

/-- C2 witness: the amended memoization theorem applied to a repo-handle
spec, whose first evaluation is present; the cached handle survives an
environment in which discovery would answer differently. -/
theorem c2_repo_memoization_witness :
    (((Dataset.new (.repo sampleRepoWithId)).repo envEmpty).2.repo envRepoAt).1 =
      some sampleRepoWithId :=
  (c2_repo_memoization (Dataset.new (.repo sampleRepoWithId)) envEmpty envRepoAt).1
    sampleRepoWithId rfl

/-- C7: whenever forcing the path property of a fresh dataset raises, the
validation call fails with the `cannot create Dataset from` error carrying
the type name of the rejected value and the original exception as cause, for
every policy configuration. -/
theorem c7_malformed_wrapped (c : EnsureDataset) (env : Env) (value : Spec)
    (e : PyError)
    (hfail : ((Dataset.new value).path env).1 = .error e) :
    EnsureDataset.call c env value =
      .error (.cannotCreate (Spec.typeName value) e) := by
  unfold EnsureDataset.call
  rw [hfail]

/-- C7 witness: an unsupported value of type `int` raises `TypeError` in
path resolution, and the unconstrained validator wraps it. -/
theorem c7_malformed_wrapped_witness :
    ((Dataset.new (.bad "int")).path envEmpty).1 = .error (.typeError "int") ∧
    EnsureDataset.call { installed := .unset } envEmpty (.bad "int") =
      .error (.cannotCreate "int" (.typeError "int")) :=
  ⟨rfl, c7_malformed_wrapped { installed := .unset } envEmpty (.bad "int")
    (.typeError "int") rfl⟩

/-- C8: for a dataset built from the `Absent` spec, the path property
returns the working directory of the environment seen at the moment of
first access, and a second access under an environment with a different
working directory still returns the first one — the value is fixed at
first access, not at construction time, and later working-directory changes
do not alter it. -/
theorem c8_absent_path_cwd (env1 env2 : Env) :
    ((Dataset.new .absent).path env1).1 = .ok env1.cwd ∧
    (((Dataset.new .absent).path env1).2.path env2).1 = .ok env1.cwd :=
  ⟨rfl, rfl⟩

/-- C9: the synopsis string differs across the three policy classes
(unconstrained, must-exist-like, must-not-exist), and the word `existing`
occurs among its whitespace-delimited words only for the must-exist-like
policies (`True` and `with-id`), while the word `non-existing` occurs only
for must-not-exist. -/
theorem c9_synopsis_policies :
    EnsureDataset.input_synopsis { installed := .unset } ≠
      EnsureDataset.input_synopsis { installed := .bool true } ∧
    EnsureDataset.input_synopsis { installed := .unset } ≠
      EnsureDataset.input_synopsis { installed := .bool false } ∧
    EnsureDataset.input_synopsis { installed := .bool true } ≠
      EnsureDataset.input_synopsis { installed := .bool false } ∧
    "existing" ∈ words (EnsureDataset.input_synopsis { installed := .bool true }) ∧
    "existing" ∈ words (EnsureDataset.input_synopsis { installed := .str "with-id" }) ∧
    "existing" ∉ words (EnsureDataset.input_synopsis { installed := .unset }) ∧
    "existing" ∉ words (EnsureDataset.input_synopsis { installed := .bool false }) ∧
    "non-existing" ∈ words (EnsureDataset.input_synopsis { installed := .bool false }) ∧
    "non-existing" ∉ words (EnsureDataset.input_synopsis { installed := .bool true }) ∧
    "non-existing" ∉ words (EnsureDataset.input_synopsis { installed := .str "with-id" }) ∧
    "non-existing" ∉ words (EnsureDataset.input_synopsis { installed := .unset }) := by
  decide

/-- C3: for every spec and every dataset state reachable from the freshly
constructed identity by any sequence of property accesses under a fixed
environment, if the worktree property yields a present worktree then the
repo property yields exactly the associated repository of that worktree. -/
theorem c3_worktree_forces_repo (env : Env) (spec : Spec) (ds : Dataset)
    (w : Worktree)
    (hreach : Reaches env (Dataset.new spec) ds)
    (hw : (ds.worktree env).1 = some w) :
    (ds.repo env).1 = some w.repo := by
  have hinv := reaches_inv env spec (inv_new env spec) hreach
  have hw0 : worktree0 env spec = some w :=
    ((worktree_sound env spec ds hinv).1).symm.trans hw
  rw [(repo_sound env spec ds hinv).1, repo0, hw0]

/-- C3 witness: a dataset built directly from a worktree handle. -/
theorem c3_worktree_forces_repo_witness :
    ((Dataset.new (.worktree sampleWorktree)).repo envEmpty).1 =
      some sampleWorktree.repo :=
  c3_worktree_forces_repo envEmpty (.worktree sampleWorktree)
    (Dataset.new (.worktree sampleWorktree)) sampleWorktree
    (Reaches.refl (Dataset.new (.worktree sampleWorktree))) rfl

theorem worktree0_str_path (env : Env) (s : String) :
    worktree0 env (.str s) = worktree0 env (.path (pathOfString s)) := rfl

theorem repo0_str_path (env : Env) (s : String) :
    repo0 env (.str s) = repo0 env (.path (pathOfString s)) := by
  unfold repo0
  rw [worktree0_str_path env s]
  cases h : worktree0 env (.path (pathOfString s)) <;> rfl

theorem path0_str_path (env : Env) (s : String) :
    path0 env (.str s) = path0 env (.path (pathOfString s)) := by
  unfold path0
  rw [if_neg (by simp), if_neg (by simp), worktree0_str_path env s,
    repo0_str_path env s]
  cases h : worktree0 env (.path (pathOfString s)) with
  | some w => rfl
  | none => cases h2 : repo0 env (.path (pathOfString s)) <;> rfl

theorem path0_str_some (env : Env) (s : String) :
    ∃ p, path0 env (.str s) = some p := by
  rw [path0, if_neg (by simp)]
  cases hw : worktree0 env (.str s) with
  | some w => exact ⟨w.path, rfl⟩
  | none =>
    cases hr : repo0 env (.str s) with
    | some r => exact ⟨r.path, rfl⟩
    | none => exact ⟨pathOfString s, rfl⟩

theorem pathRes0_str_path (env : Env) (s : String) :
    pathRes0 env (.str s) = pathRes0 env (.path (pathOfString s)) := by
  obtain ⟨p, hp⟩ := path0_str_some env s
  have hp2 : path0 env (.path (pathOfString s)) = some p :=
    (path0_str_path env s).symm.trans hp
  rw [pathRes0_eq_ok env _ p hp, pathRes0_eq_ok env _ p hp2]

/-- C10: a dataset built from the text spec `s` and one built from the path
spec `Path(s)` agree on all three properties — text specs are interpreted by
conversion to a path, with no other interpretation. -/
theorem c10_str_path_equiv (s : String) (env : Env) :
    ((Dataset.new (.str s)).path env).1 =
      ((Dataset.new (.path (pathOfString s))).path env).1 ∧
    ((Dataset.new (.str s)).repo env).1 =
      ((Dataset.new (.path (pathOfString s))).repo env).1 ∧
    ((Dataset.new (.str s)).worktree env).1 =
      ((Dataset.new (.path (pathOfString s))).worktree env).1 := by
  refine ⟨?_, ?_, ?_⟩
  · rw [(path_sound env (.str s) _ (inv_new env (.str s))).1,
      (path_sound env (.path (pathOfString s)) _ (inv_new env _)).1,
      pathRes0_str_path env s]
  · rw [(repo_sound env (.str s) _ (inv_new env (.str s))).1,
      (repo_sound env (.path (pathOfString s)) _ (inv_new env _)).1,
      repo0_str_path env s]
  · rw [(worktree_sound env (.str s) _ (inv_new env (.str s))).1,
      (worktree_sound env (.path (pathOfString s)) _ (inv_new env _)).1,
      worktree0_str_path env s]

/-- C4 counterexample: a relative path spec with nothing on disk is returned
unmodified by the path property, so the result is not an absolute filesystem
location — refuting the "always returns an absolute" part of the claim at
the concrete relative spec `subdir`. -/
theorem c4_counterexample :
    ((Dataset.new (.path relPath)).path envEmpty).1 = .ok relPath ∧
    relPath.absolute = false :=
  ⟨rfl, rfl⟩

/-- C4 amended: for every supported spec shape the path property never
fails; and the result is an absolute location provided the working directory
and the discovery primitives yield absolute roots, handle-shaped specs carry
absolute roots, and — in the nothing-on-disk fallback — the spec-derived
path itself is absolute (the fallback returns the spec path unmodified, with
no existence check and no resolution, so a relative spec stays relative). -/
theorem c4_path_total_and_absolute (env : Env) (spec : Spec)
    (hs : spec.supported = true) :
    (∃ p, ((Dataset.new spec).path env).1 = .ok p) ∧
    (Env.wf env → spec.handlesAbsolute → spec.fallbackAbsolute = true →
      ∃ p, ((Dataset.new spec).path env).1 = .ok p ∧ p.absolute = true) := by
  have hval := (path_sound env spec _ (inv_new env spec)).1
  suffices h : ∃ p, path0 env spec = some p ∧
      (Env.wf env → spec.handlesAbsolute → spec.fallbackAbsolute = true →
        p.absolute = true) by
    obtain ⟨p, hp, habs⟩ := h
    rw [hval, pathRes0_eq_ok env spec p hp]
    exact ⟨⟨p, rfl⟩, fun hwf hha hfb => ⟨p, rfl, habs hwf hha hfb⟩⟩
  cases spec with
  | absent => exact ⟨env.cwd, rfl, fun hwf _ _ => hwf.1⟩
  | bad t => simp [Spec.supported] at hs
  | path p =>
    rw [path0, if_neg (by simp)]
    cases hw : worktree0 env (.path p) with
    | some w => exact ⟨w.path, rfl, fun hwf _ _ => hwf.2.2 p w hw⟩
    | none =>
      cases hr : repo0 env (.path p) with
      | some r =>
        refine ⟨r.path, rfl, fun hwf _ _ => hwf.2.1 p r ?_⟩
        rw [repo0, hw] at hr
        exact hr
      | none => exact ⟨p, rfl, fun _ _ hfb => hfb⟩
  | str s =>
    rw [path0, if_neg (by simp)]
    cases hw : worktree0 env (.str s) with
    | some w => exact ⟨w.path, rfl, fun hwf _ _ => hwf.2.2 (pathOfString s) w hw⟩
    | none =>
      cases hr : repo0 env (.str s) with
      | some r =>
        refine ⟨r.path, rfl, fun hwf _ _ => hwf.2.1 (pathOfString s) r ?_⟩
        rw [repo0, hw] at hr
        exact hr
      | none => exact ⟨pathOfString s, rfl, fun _ _ hfb => hfb⟩
  | repo r =>
    rw [path0, if_neg (by simp)]
    exact ⟨r.path, rfl, fun _ hha _ => hha⟩
  | worktree w =>
    rw [path0, if_neg (by simp)]
    exact ⟨w.path, rfl, fun _ hha _ => hha⟩

/-- C4 witness: the amended theorem applied to an absolute path spec in the
empty environment. -/
theorem c4_path_total_and_absolute_witness :
    Spec.supported (.path samplePath) = true ∧
    ((∃ p, ((Dataset.new (.path samplePath)).path envEmpty).1 = .ok p) ∧
     (Env.wf envEmpty → Spec.handlesAbsolute (.path samplePath) →
       Spec.fallbackAbsolute (.path samplePath) = true →
       ∃ p, ((Dataset.new (.path samplePath)).path envEmpty).1 = .ok p ∧
         p.absolute = true)) :=
  ⟨rfl, c4_path_total_and_absolute envEmpty (.path samplePath) rfl⟩

/-- C5: for every value for which an entity is present (the worktree or
repo resolution of a fresh identity yields something), validation under
must-not-exist (`installed=False`) fails with the already-exists error,
while validation under plain must-exist (`installed=True`) succeeds and
returns the identity carrying the original spec. -/
theorem c5_present_policies (env : Env) (value : Spec)
    (hpresent : (entity0 env value).isSome = true) :
    EnsureDataset.call { installed := .bool false } env value =
      .error .alreadyExists ∧
    (∃ ds, EnsureDataset.call { installed := .bool true } env value = .ok ds ∧
      ds.pristine_spec = value) := by
  obtain ⟨p, hp0⟩ := path0_isSome_of_entity env value hpresent
  have hok := pathRes0_eq_ok env value p hp0
  have hpinv := (path_sound env value _ (inv_new env value)).2
  have hent := (worktreeOrRepo_sound env value _ hpinv).1
  have hnone : (entity0 env value).isNone = false := by
    cases h : entity0 env value with
    | none => rw [h] at hpresent; simp at hpresent
    | some q => rfl
  constructor
  · rw [call_path_ok _ env value p hok]
    unfold EnsureDataset.checkNotExists
    rw [if_pos rfl, hent, if_pos hpresent]
  · rw [call_path_ok _ env value p hok]
    unfold EnsureDataset.checkNotExists
    rw [if_neg (by decide :
      ¬({ installed := InstalledArg.bool true } : EnsureDataset).installed =
        InstalledArg.bool false)]
    unfold EnsureDataset.checkInstalled
    rw [if_pos (by decide :
        ({ installed := InstalledArg.bool true } : EnsureDataset).installed.truthy =
          true),
      hent, if_neg (by rw [hnone]; simp)]
    unfold EnsureDataset.checkId
    rw [if_pos (by decide :
      ({ installed := InstalledArg.bool true } : EnsureDataset).installed ≠
        InstalledArg.str "with-id")]
    exact ⟨_, rfl, ((worktreeOrRepo_sound env value _ hpinv).2).1⟩

/-- C5 witness: a bare repository discovered at the sample path. -/
theorem c5_present_policies_witness :
    (entity0 envRepoAt (.path samplePath)).isSome = true ∧
    (EnsureDataset.call { installed := .bool false } envRepoAt
        (.path samplePath) = .error .alreadyExists ∧
     ∃ ds, EnsureDataset.call { installed := .bool true } envRepoAt
         (.path samplePath) = .ok ds ∧ ds.pristine_spec = .path samplePath) :=
  ⟨rfl, c5_present_policies envRepoAt (.path samplePath) rfl⟩

/-- C6: under the with-id policy, once an entity is present the validator
queries the worktree if present, else the repository (exactly the entity
`entity0` selects), for the key `datalad.dataset.id` in its
`datalad-branch` configuration source: validation succeeds and returns the
identity exactly when the key is present, and fails with the missing-id
error exactly when it is absent. -/
theorem c6_withId_marker (env : Env) (value : Spec) (q : GitEntity)
    (hq : entity0 env value = some q) :
    ("datalad.dataset.id" ∈ q.branchConfig →
      ∃ ds, EnsureDataset.call { installed := .str "with-id" } env value =
        .ok ds ∧ ds.pristine_spec = value) ∧
    ("datalad.dataset.id" ∉ q.branchConfig →
      EnsureDataset.call { installed := .str "with-id" } env value =
        .error .missingDataladId) := by
  have hpresent : (entity0 env value).isSome = true := by rw [hq]; rfl
  obtain ⟨p, hp0⟩ := path0_isSome_of_entity env value hpresent
  have hok := pathRes0_eq_ok env value p hp0
  have hpinv := (path_sound env value _ (inv_new env value)).2
  obtain ⟨hent, hinv2⟩ := worktreeOrRepo_sound env value _ hpinv
  obtain ⟨hent2, hinv3⟩ := worktreeOrRepo_sound env value _ hinv2
  have hcall : EnsureDataset.call { installed := .str "with-id" } env value =
      EnsureDataset.checkId { installed := .str "with-id" } env
        ((((Dataset.new value).path env).2).worktreeOrRepo env).2 := by
    rw [call_path_ok _ env value p hok]
    unfold EnsureDataset.checkNotExists
    rw [if_neg (by decide :
      ¬({ installed := InstalledArg.str "with-id" } : EnsureDataset).installed =
        InstalledArg.bool false)]
    unfold EnsureDataset.checkInstalled
    rw [if_pos (by decide :
        ({ installed := InstalledArg.str "with-id" } :
          EnsureDataset).installed.truthy = true),
      hent, if_neg (by rw [hq]; simp)]
  constructor
  · intro hmem
    rw [hcall]
    unfold EnsureDataset.checkId
    rw [if_neg (by decide :
      ¬({ installed := InstalledArg.str "with-id" } : EnsureDataset).installed ≠
        InstalledArg.str "with-id")]
    simp only [hent2, hq]
    rw [if_pos hmem]
    exact ⟨_, rfl, hinv3.1⟩
  · intro hmem
    rw [hcall]
    unfold EnsureDataset.checkId
    rw [if_neg (by decide :
      ¬({ installed := InstalledArg.str "with-id" } : EnsureDataset).installed ≠
        InstalledArg.str "with-id")]
    simp only [hent2, hq]
    rw [if_neg hmem]

/-- C6 witness: a bare repository carrying the id marker passes the with-id
validation. -/
theorem c6_withId_marker_witness :
    entity0 envRepoWithId (.path samplePath) = some (.rp sampleRepoWithId) ∧
    (∃ ds, EnsureDataset.call { installed := .str "with-id" } envRepoWithId
        (.path samplePath) = .ok ds ∧ ds.pristine_spec = .path samplePath) :=
  ⟨rfl,
    (c6_withId_marker envRepoWithId (.path samplePath) (.rp sampleRepoWithId)
        rfl).1 (by decide)⟩

end DataladCore
